import Mathlib

/-!
Verification of the web-crawler backend (Go) against its natural-language
specification.  The definitions below are a shallow embedding of
`backend/internal/services/crawler_service.go`,
`backend/internal/services/url_service.go`,
`backend/internal/handlers/url_handler.go` and
`backend/internal/models/models.go`.  Library behaviour that the code calls
opaquely (Go `net/url` parsing and reference resolution, the HTTP client,
the MySQL unique-key constraint) is modelled by explicit parameters
(`URLLib`, `World`) or by a small relational-state model (`DB`).
-/

namespace WebCrawler

/-- Node types of golang.org/x/net/html. -/
inductive NodeType where
  | errorNode
  | textNode
  | documentNode
  | elementNode
  | commentNode
  | doctypeNode
deriving DecidableEq

/-- An HTML attribute (Key/Val of html.Attribute). -/
structure Attribute where
  key : String
  val : String
deriving DecidableEq

/-- An html.Node pointer: either nil, or a node carrying its type, tag/text
data, attributes, first child and next sibling — exactly the linked shape
the Go traversal walks. -/
inductive NodeTree where
  | nil
  | mk (ntype : NodeType) (data : String) (attrs : List Attribute)
       (firstChild : NodeTree) (nextSibling : NodeTree)
deriving DecidableEq

/-- A parsed URL as the crawler observes it: its Host and the string its
String() method renders.  The parsing and resolution algorithms of Go
net/url are opaque to the crawler code, so they are parameters (URLLib). -/
structure GoURL where
  host : String
  render : String
deriving DecidableEq

/-- The net/url operations the crawler calls: Parse (fallible) and
ResolveReference. -/
structure URLLib where
  parse : String → Option GoURL
  resolveReference : GoURL → GoURL → GoURL

/-- HeadingCounts from models.go. -/
structure HeadingCounts where
  h1 : Nat
  h2 : Nat
  h3 : Nat
  h4 : Nat
  h5 : Nat
  h6 : Nat
deriving DecidableEq

/-- A Link row from models.go (the fields the crawler writes). -/
structure Link where
  urlID : Nat
  crawlID : Nat
  linkURL : String
  linkText : String
  linkType : String
  statusCode : Nat
  isAccessible : Bool
deriving DecidableEq

/-- CrawlData from crawler_service.go. -/
structure CrawlData where
  title : String
  htmlVersion : String
  hasLoginForm : Bool
  headingCounts : HeadingCounts
  internalLinks : Nat
  externalLinks : Nat
  brokenLinks : Nat
  links : List Link
deriving DecidableEq

/-- An HTTP request the crawler can issue. -/
inductive Request where
  | get (url : String)
  | head (url : String)
deriving DecidableEq

/-- Response of the one http.Get: status code, status text, and the result
of html.Parse on the body. -/
structure GetResp where
  statusCode : Nat
  statusText : String
  body : Except String NodeTree

/-- The network as the crawler observes it: http.Get of the page and the
HEAD client used for accessibility probing (none = transport error). -/
structure World where
  get : String → Except String GetResp
  head : String → Option Nat

/-- The URL row fields performCrawl reads and writes. -/
structure URLRec where
  id : Nat
  url : String
  title : String
  htmlVersion : String
  status : String
  hasLoginForm : Bool
deriving DecidableEq

/-- The Crawl row fields performCrawl reads and writes.  completedAtSet
records that the deferred block stamped CompletedAt. -/
structure CrawlRec where
  id : Nat
  urlID : Nat
  status : String
  errorMessage : String
  internalLinks : Nat
  externalLinks : Nat
  brokenLinks : Nat
  headingCounts : String
  completedAtSet : Bool
deriving DecidableEq

/-- The href extraction loop of processLink: first attribute whose Key is
"href", else the empty string. -/
def getHref (attrs : List Attribute) : String :=
  match attrs.find? (fun a => a.key == "href") with
  | some a => a.val
  | none => ""

/-- The attribute list of a node (empty for a nil pointer). -/
def nodeAttrs : NodeTree → List Attribute
  | .nil => []
  | .mk _ _ attrs _ _ => attrs

/-- The link-text extraction of processLink: the first child's Data,
trimmed, when that child exists and is a text node. -/
def getLinkText (n : NodeTree) : String :=
  match n with
  | .nil => ""
  | .mk _ _ _ fc _ =>
    match fc with
    | .mk ct cdat _ _ _ => if ct = NodeType.textNode then cdat.trim else ""
    | .nil => ""

/-- processLink from crawler_service.go: extract the href, parse and
resolve it, classify internal/external by host comparison, and append the
Link while bumping the matching counter. -/
def processLink (lib : URLLib) (n : NodeTree) (d : CrawlData) (base : GoURL) : CrawlData :=
  let href := getHref (nodeAttrs n)
  if href = "" then d
  else
    match lib.parse href with
    | none => d
    | some linkURL =>
      let resolved := lib.resolveReference base linkURL
      let linkType := if resolved.host = base.host then "internal" else "external"
      let link : Link :=
        { urlID := 0, crawlID := 0, linkURL := resolved.render,
          linkText := getLinkText n, linkType := linkType,
          statusCode := 0, isAccessible := true }
      { d with
        links := d.links ++ [link],
        internalLinks := if linkType = "internal" then d.internalLinks + 1 else d.internalLinks,
        externalLinks := if linkType = "internal" then d.externalLinks else d.externalLinks + 1 }

/-- The attribute rendering loop of renderNode. -/
def attrsString (attrs : List Attribute) : String :=
  String.join (attrs.map (fun a => " " ++ a.key ++ "=\"" ++ a.val ++ "\""))

/-- renderNode's recursion, restructured over the child/sibling chain: a
nil pointer renders nothing; an element renders its open tag, children and
close tag; a text node renders its data; other node types render nothing.
After rendering a node its next sibling follows (the caller's loop). -/
def renderChain : NodeTree → String
  | .nil => ""
  | .mk t dat attrs fc ns =>
    (match t with
     | NodeType.elementNode =>
       "<" ++ dat ++ attrsString attrs ++ ">" ++ renderChain fc ++ "</" ++ dat ++ ">"
     | NodeType.textNode => dat
     | _ => "") ++ renderChain ns

/-- renderNode from crawler_service.go applied to a single node (its
sibling chain is the caller's concern). -/
def renderNode (n : NodeTree) : String :=
  match n with
  | .nil => ""
  | .mk t dat attrs fc _ =>
    match t with
    | NodeType.elementNode =>
      "<" ++ dat ++ attrsString attrs ++ ">" ++ renderChain fc ++ "</" ++ dat ++ ">"
    | NodeType.textNode => dat
    | _ => ""

/-- nodeToString from crawler_service.go. -/
def nodeToString (n : NodeTree) : String :=
  renderNode n

/-- Infix test on character lists, used to model Go strings.Contains. -/
def listInfix (sub : List Char) : List Char → Bool
  | [] => decide (sub = [])
  | c :: rest => sub.isPrefixOf (c :: rest) || listInfix sub rest

/-- Go strings.Contains via list infix. -/
def goContains (s sub : String) : Bool :=
  listInfix sub.toList s.toList

/-- The login indicators list of checkLoginForm. -/
def loginIndicators : List String :=
  ["login", "signin", "email", "username", "password"]

/-- checkLoginForm from crawler_service.go: render the form, lowercase it,
and set HasLoginForm when any indicator occurs in it. -/
def checkLoginForm (n : NodeTree) (d : CrawlData) : CrawlData :=
  if loginIndicators.any (fun ind => goContains (nodeToString n).toLower ind) then
    { d with hasLoginForm := true }
  else d

/-- detectHTMLVersion from crawler_service.go: always reports HTML5. -/
def detectHTMLVersion (d : CrawlData) : CrawlData :=
  { d with htmlVersion := "HTML5" }

/-- The title case of traverseHTML: record the first child's trimmed data
when no title was seen yet and the child exists. -/
def titleVisit (fc : NodeTree) (d : CrawlData) : CrawlData :=
  match fc with
  | .mk _ cdat _ _ _ => if d.title = "" then { d with title := cdat.trim } else d
  | .nil => d

/-- The switch statement in the body of traverseHTML, applied to one node. -/
def visitNode (lib : URLLib) (n : NodeTree) (d : CrawlData) (base : GoURL) : CrawlData :=
  match n with
  | .nil => d
  | .mk t dat _ fc _ =>
    if t = NodeType.elementNode then
      match dat with
      | "title" => titleVisit fc d
      | "h1" => { d with headingCounts := { d.headingCounts with h1 := d.headingCounts.h1 + 1 } }
      | "h2" => { d with headingCounts := { d.headingCounts with h2 := d.headingCounts.h2 + 1 } }
      | "h3" => { d with headingCounts := { d.headingCounts with h3 := d.headingCounts.h3 + 1 } }
      | "h4" => { d with headingCounts := { d.headingCounts with h4 := d.headingCounts.h4 + 1 } }
      | "h5" => { d with headingCounts := { d.headingCounts with h5 := d.headingCounts.h5 + 1 } }
      | "h6" => { d with headingCounts := { d.headingCounts with h6 := d.headingCounts.h6 + 1 } }
      | "a" => processLink lib n d base
      | "form" => checkLoginForm n d
      | "html" => detectHTMLVersion d
      | _ => d
    else d

/-- The recursion of traverseHTML over the child/sibling chain: visit the
node, recurse into its first child's chain, then continue with the next
sibling (the enclosing loop of the Go code). -/
def traverseChain (lib : URLLib) : NodeTree → CrawlData → GoURL → CrawlData
  | .nil, d, _ => d
  | .mk t dat attrs fc ns, d, base =>
    let d1 := visitNode lib (.mk t dat attrs fc ns) d base
    let d2 := traverseChain lib fc d1 base
    traverseChain lib ns d2 base

/-- traverseHTML from crawler_service.go applied to a single node: visit it
and walk the chain of its children. -/
def traverseHTML (lib : URLLib) (n : NodeTree) (d : CrawlData) (base : GoURL) : CrawlData :=
  match n with
  | .nil => d
  | .mk _ _ _ fc _ => traverseChain lib fc (visitNode lib n d base) base

/-- One iteration of the accessibility loop: an internal link is stamped
with status 200 and not probed; an external link is probed with a HEAD
request, a transport error or a status of 400 or above marking it broken.
Returns the updated link, the BrokenLinks increment and the requests made. -/
def checkOne (world : World) (l : Link) : Link × Nat × List Request :=
  if l.linkType = "internal" then ({ l with statusCode := 200 }, 0, [])
  else
    match world.head l.linkURL with
    | none => ({ l with statusCode := 0, isAccessible := false }, 1, [Request.head l.linkURL])
    | some code =>
      if 400 ≤ code then
        ({ l with statusCode := code, isAccessible := false }, 1, [Request.head l.linkURL])
      else
        ({ l with statusCode := code }, 0, [Request.head l.linkURL])

/-- The serial loop of checkLinkAccessibility over the collected links. -/
def checkLinks (world : World) : List Link → List Link × Nat × List Request
  | [] => ([], 0, [])
  | l :: rest =>
    let r := checkOne world l
    let rr := checkLinks world rest
    (r.1 :: rr.1, r.2.1 + rr.2.1, r.2.2 ++ rr.2.2)

/-- checkLinkAccessibility from crawler_service.go, also reporting the HEAD
requests it issued. -/
def checkLinkAccessibility (world : World) (d : CrawlData) : CrawlData × List Request :=
  let r := checkLinks world d.links
  ({ d with links := r.1, brokenLinks := d.brokenLinks + r.2.1 }, r.2.2)

/-- The CrawlData value extractData starts from. -/
def emptyCrawlData : CrawlData :=
  { title := "", htmlVersion := "HTML5", hasLoginForm := false,
    headingCounts := { h1 := 0, h2 := 0, h3 := 0, h4 := 0, h5 := 0, h6 := 0 },
    internalLinks := 0, externalLinks := 0, brokenLinks := 0, links := [] }

/-- extractData from crawler_service.go: parse the base URL (returning the
default data on failure), traverse the document and run the accessibility
check.  Also reports the HEAD requests issued. -/
def extractData (lib : URLLib) (world : World) (doc : NodeTree) (baseURL : String) :
    CrawlData × List Request :=
  match lib.parse baseURL with
  | none => (emptyCrawlData, [])
  | some base =>
    let d := traverseHTML lib doc emptyCrawlData base
    checkLinkAccessibility world d

/-- json.Marshal of models.HeadingCounts with its h1..h6 JSON tags. -/
def headingCountsJSON (h : HeadingCounts) : String :=
  "\x7b\"h1\":" ++ toString h.h1 ++ ",\"h2\":" ++ toString h.h2 ++
  ",\"h3\":" ++ toString h.h3 ++ ",\"h4\":" ++ toString h.h4 ++
  ",\"h5\":" ++ toString h.h5 ++ ",\"h6\":" ++ toString h.h6 ++ "\x7d"

/-- The deferred block of performCrawl: stamp CompletedAt, save the crawl,
copy the crawl status onto the URL row and save it. -/
def finishCrawl (u : URLRec) (c : CrawlRec) : URLRec × CrawlRec :=
  ({ u with status := c.status }, { c with completedAtSet := true })

/-- Everything performCrawl leaves behind: the saved URL and crawl rows,
the link rows it created, and the HTTP requests it issued. -/
structure CrawlResult where
  url : URLRec
  crawl : CrawlRec
  links : List Link
  trace : List Request
deriving DecidableEq

/-- performCrawl from crawler_service.go: one GET of the URL; on a
transport error, a status of 400 or above, or a parse failure, mark the
crawl as error; otherwise extract the data, update the URL and crawl rows,
mark completed and create a link row per extracted link. -/
def performCrawl (lib : URLLib) (world : World) (u0 : URLRec) (c0 : CrawlRec) : CrawlResult :=
  match world.get u0.url with
  | .error e =>
    let c := { c0 with status := "error", errorMessage := "HTTP request failed: " ++ e }
    let fin := finishCrawl u0 c
    { url := fin.1, crawl := fin.2, links := [], trace := [Request.get u0.url] }
  | .ok resp =>
    if 400 ≤ resp.statusCode then
      let c := { c0 with
                 status := "error"
                 errorMessage := "HTTP " ++ toString resp.statusCode ++ ": " ++ resp.statusText }
      let fin := finishCrawl u0 c
      { url := fin.1, crawl := fin.2, links := [], trace := [Request.get u0.url] }
    else
      match resp.body with
      | .error e =>
        let c := { c0 with status := "error", errorMessage := "HTML parsing failed: " ++ e }
        let fin := finishCrawl u0 c
        { url := fin.1, crawl := fin.2, links := [], trace := [Request.get u0.url] }
      | .ok doc =>
        let r := extractData lib world doc u0.url
        let d := r.1
        let u1 := { u0 with
                    title := d.title
                    htmlVersion := d.htmlVersion
                    hasLoginForm := d.hasLoginForm }
        let c1 := { c0 with
                    internalLinks := d.internalLinks
                    externalLinks := d.externalLinks
                    brokenLinks := d.brokenLinks
                    headingCounts := headingCountsJSON d.headingCounts
                    status := "completed" }
        let fin := finishCrawl u1 c1
        { url := fin.1, crawl := fin.2,
          links := d.links.map (fun l => { l with urlID := u0.id, crawlID := c0.id }),
          trace := Request.get u0.url :: r.2 }

/-- Go strconv.Atoi: an optional sign followed by at least one digit, the
value within the signed 64-bit range; anything else is an error. -/
def goAtoi (s : String) : Option Int :=
  match s.toList with
  | [] => none
  | c :: rest =>
    let signed : Bool × List Char :=
      if c = '-' then (true, rest)
      else if c = '+' then (false, rest)
      else (false, c :: rest)
    if signed.2 = [] then none
    else if signed.2.all Char.isDigit then
      let n : Nat := signed.2.foldl (fun a ch => a * 10 + (ch.toNat - 48)) 0
      let v : Int := if signed.1 then -(n : Int) else (n : Int)
      if v < -(2 ^ 63) ∨ (2 ^ 63 - 1) < v then none else some v
    else none

/-- The sort-column whitelist of URLHandler.GetURLs. -/
def validSortColumns : List String :=
  ["url", "title", "status", "html_version", "created_at", "updated_at"]

/-- The parameters URLHandler.GetURLs hands to the query layer. -/
structure URLQueryParams where
  limit : Int
  offset : Int
  sortBy : String
  sortOrder : String
deriving DecidableEq

/-- The query-parameter sanitization of URLHandler.GetURLs: each input is
the raw query value when the key is present (gin DefaultQuery), else the
default. -/
def getURLsParams (limitQ offsetQ sortByQ sortOrderQ : Option String) : URLQueryParams :=
  let limitStr := limitQ.getD "20"
  let offsetStr := offsetQ.getD "0"
  let sortBy0 := sortByQ.getD "updated_at"
  let sortOrder0 := sortOrderQ.getD "desc"
  let limit : Int :=
    match goAtoi limitStr with
    | none => 20
    | some v => if v ≤ 0 ∨ 100 < v then 20 else v
  let offset : Int :=
    match goAtoi offsetStr with
    | none => 0
    | some v => if v < 0 then 0 else v
  let sortBy := if validSortColumns.contains sortBy0 then sortBy0 else "updated_at"
  let sortOrder := if sortOrder0 = "asc" ∨ sortOrder0 = "desc" then sortOrder0 else "desc"
  { limit := limit, offset := offset, sortBy := sortBy, sortOrder := sortOrder }

/-- A row of the urls table as URLService.CreateURL sees it:
deletedAtValid mirrors gorm.DeletedAt.Valid. -/
structure URLRow where
  id : Nat
  url : String
  status : String
  deletedAtValid : Bool
deriving DecidableEq

/-- The urls table with its auto-increment counter. -/
structure DB where
  rows : List URLRow
  nextId : Nat
deriving DecidableEq

/-- The MySQL unique constraint on urls.url as gorm reports it: Create
fails with a duplicate-entry error when any row (soft-deleted included)
already carries the URL, else inserts a fresh pending row. -/
def dbCreateURL (db : DB) (u : String) : Except String (URLRow × DB) :=
  if db.rows.any (fun r => r.url == u) then
    Except.error "Error 1062 (23000): Duplicate entry"
  else
    let row : URLRow := { id := db.nextId, url := u, status := "pending", deletedAtValid := false }
    Except.ok (row, { rows := db.rows ++ [row], nextId := db.nextId + 1 })

/-- What URLService.CreateURL leaves behind: the returned record or error,
the table afterwards, and the IDs handed to StartCrawl goroutines. -/
structure CreateURLResult where
  result : Except String URLRow
  db : DB
  startedCrawls : List Nat

/-- CreateURL from url_service.go: try to insert; on a duplicate-key error
fetch the existing row unscoped, clear its deletion timestamp if set,
reset its status to pending, save it and restart crawling. -/
def createURL (db : DB) (u : String) : CreateURLResult :=
  match dbCreateURL db u with
  | Except.ok rd =>
    { result := Except.ok rd.1, db := rd.2, startedCrawls := [rd.1.id] }
  | Except.error e =>
    if goContains e "Duplicate entry" || goContains e "UNIQUE constraint failed" then
      match db.rows.find? (fun r => r.url == u) with
      | none =>
        { result := Except.error "failed to fetch existing URL after duplicate error"
          db := db, startedCrawls := [] }
      | some existing =>
        let existing1 := if existing.deletedAtValid then { existing with deletedAtValid := false } else existing
        let existing2 := { existing1 with status := "pending" }
        let db2 : DB := { db with rows := db.rows.map (fun r => if r.id == existing2.id then existing2 else r) }
        { result := Except.ok existing2, db := db2, startedCrawls := [existing2.id] }
    else
      { result := Except.error ("failed to create URL record: " ++ e)
        db := db, startedCrawls := [] }

/-- Columns of the users table (models.go User and migration DDL). -/
def usersColumns : List String :=
  ["id", "username", "email", "password", "first_name", "last_name",
   "is_active", "is_admin", "created_at", "updated_at", "deleted_at"]

/-- Columns of the urls table (models.go URL and migration DDL). -/
def urlsColumns : List String :=
  ["id", "url", "title", "html_version", "status", "has_login_form",
   "created_at", "updated_at", "deleted_at"]

/-- Columns of the crawls table (models.go Crawl and migration DDL). -/
def crawlsColumns : List String :=
  ["id", "url_id", "status", "started_at", "completed_at", "error_message",
   "internal_links", "external_links", "broken_links", "heading_counts",
   "created_at", "updated_at"]

/-- Columns of the links table (models.go Link and migration DDL). -/
def linksColumns : List String :=
  ["id", "url_id", "crawl_id", "link_url", "link_text", "link_type",
   "status_code", "is_accessible", "created_at"]

/-- A table supports gorm soft deletion exactly when it carries the
deleted_at timestamp column. -/
def hasSoftDeleteColumn (cols : List String) : Bool :=
  cols.contains "deleted_at"

/-- Preorder list of the nodes visited when walking a child/sibling chain. -/
def preorderChain : NodeTree → List NodeTree
  | .nil => []
  | .mk t dat attrs fc ns => .mk t dat attrs fc ns :: (preorderChain fc ++ preorderChain ns)

/-- Number of nodes in a child/sibling chain. -/
def nodeCountChain : NodeTree → Nat
  | .nil => 0
  | .mk _ _ _ fc ns => 1 + nodeCountChain fc + nodeCountChain ns

/-- Preorder list of the nodes traverseHTML visits from a root node. -/
def preorderHTML : NodeTree → List NodeTree
  | .nil => []
  | .mk t dat attrs fc ns => .mk t dat attrs fc ns :: preorderChain fc

/-- Number of nodes in the tree rooted at a node (the node and its
descendants, not its siblings). -/
def nodeCountHTML : NodeTree → Nat
  | .nil => 0
  | .mk _ _ _ fc _ => 1 + nodeCountChain fc

/-- The link processLink would append for a node, if any. -/
def anchorLink (lib : URLLib) (base : GoURL) (n : NodeTree) : Option Link :=
  let href := getHref (nodeAttrs n)
  if href = "" then none
  else
    match lib.parse href with
    | none => none
    | some u =>
      let resolved := lib.resolveReference base u
      some { urlID := 0, crawlID := 0, linkURL := resolved.render,
             linkText := getLinkText n,
             linkType := if resolved.host = base.host then "internal" else "external",
             statusCode := 0, isAccessible := true }

/-- Whether a node is an element with the given tag. -/
def isTagNode (tag : String) (n : NodeTree) : Bool :=
  match n with
  | .mk t dat _ _ _ => decide (t = NodeType.elementNode) && dat == tag
  | .nil => false

/-- The links a single visit of visitNode appends. -/
def nodeLinks (lib : URLLib) (base : GoURL) (n : NodeTree) : List Link :=
  if isTagNode "a" n then (anchorLink lib base n).toList else []

/-- The condition under which performCrawl takes one of its three error
returns: the GET fails, the status is 400 or above, or parsing fails. -/
def fetchFails (world : World) (u : String) : Bool :=
  match world.get u with
  | Except.error _ => true
  | Except.ok resp =>
    if 400 ≤ resp.statusCode then true
    else
      match resp.body with
      | Except.error _ => true
      | Except.ok _ => false

/-- Whether a request is a GET. -/
def isGetRequest : Request → Bool
  | Request.get _ => true
  | Request.head _ => false

/-- Concrete base URL used to evaluate the theorems on a concrete input. -/
def sampleBase : GoURL := { host := "a.com", render := "http://a.com/" }

/-- Concrete URL library over three known URL strings: the page itself, a
relative link and an absolute external link. -/
def sampleLib : URLLib :=
  { parse := fun s =>
      if s = "http://a.com/" then some { host := "a.com", render := "http://a.com/" }
      else if s = "/in" then some { host := "", render := "/in" }
      else if s = "http://b.com/x" then some { host := "b.com", render := "http://b.com/x" }
      else none
    resolveReference := fun base u =>
      if u.host = "" then { host := base.host, render := base.render ++ u.render } else u }

/-- Concrete anchor to an external URL. -/
def sampleAnchorExt : NodeTree :=
  .mk NodeType.elementNode "a" [{ key := "href", val := "http://b.com/x" }] .nil .nil

/-- Concrete anchor to an internal (relative) URL, followed by the
external anchor. -/
def sampleAnchorInt : NodeTree :=
  .mk NodeType.elementNode "a" [{ key := "href", val := "/in" }] .nil sampleAnchorExt

/-- Concrete h1 heading followed by the two anchors. -/
def sampleH1 : NodeTree := .mk NodeType.elementNode "h1" [] .nil sampleAnchorInt

/-- Concrete document: an html element whose children are an h1, an
internal anchor and an external anchor. -/
def sampleDoc : NodeTree := .mk NodeType.elementNode "html" [] sampleH1 .nil

/-- Concrete network: the page fetches fine and parses to sampleDoc; the
external link answers HEAD with 404; everything else fails. -/
def sampleWorld : World :=
  { get := fun s =>
      if s = "http://a.com/" then
        Except.ok { statusCode := 200, statusText := "200 OK", body := Except.ok sampleDoc }
      else Except.error "connection refused"
    head := fun s => if s = "http://b.com/x" then some 404 else none }

/-- The concrete GET response the sample network serves for the page. -/
def sampleResp : GetResp :=
  { statusCode := 200, statusText := "200 OK", body := Except.ok sampleDoc }

/-- Concrete network where every GET fails at transport level. -/
def failWorld : World :=
  { get := fun _ => Except.error "connection refused", head := fun _ => none }

/-- Concrete URL row entering performCrawl. -/
def sampleURLRec : URLRec :=
  { id := 1, url := "http://a.com/", title := "", htmlVersion := "",
    status := "running", hasLoginForm := false }

/-- Concrete crawl row entering performCrawl. -/
def sampleCrawlRec : CrawlRec :=
  { id := 7, urlID := 1, status := "running", errorMessage := "",
    internalLinks := 0, externalLinks := 0, brokenLinks := 0,
    headingCounts := "", completedAtSet := false }

/-- Concrete soft-deleted urls-table row. -/
def sampleRow : URLRow := { id := 3, url := "http://a.com/", status := "error", deletedAtValid := true }

/-- Concrete urls table holding only the soft-deleted row. -/
def sampleDB : DB := { rows := [sampleRow], nextId := 4 }

/-! Helper lemmas: the effect of each visit helper on the CrawlData
fields. -/

theorem checkLoginForm_links (n : NodeTree) (d : CrawlData) :
    (checkLoginForm n d).links = d.links := by
  unfold checkLoginForm; split <;> rfl

theorem checkLoginForm_internalLinks (n : NodeTree) (d : CrawlData) :
    (checkLoginForm n d).internalLinks = d.internalLinks := by
  unfold checkLoginForm; split <;> rfl

theorem checkLoginForm_externalLinks (n : NodeTree) (d : CrawlData) :
    (checkLoginForm n d).externalLinks = d.externalLinks := by
  unfold checkLoginForm; split <;> rfl

theorem checkLoginForm_brokenLinks (n : NodeTree) (d : CrawlData) :
    (checkLoginForm n d).brokenLinks = d.brokenLinks := by
  unfold checkLoginForm; split <;> rfl

theorem checkLoginForm_headingCounts (n : NodeTree) (d : CrawlData) :
    (checkLoginForm n d).headingCounts = d.headingCounts := by
  unfold checkLoginForm; split <;> rfl

theorem processLink_links (lib : URLLib) (n : NodeTree) (d : CrawlData) (base : GoURL) :
    (processLink lib n d base).links = d.links ++ (anchorLink lib base n).toList := by
  by_cases h : getHref (nodeAttrs n) = ""
  · simp [processLink, anchorLink, h]
  · cases hp : lib.parse (getHref (nodeAttrs n)) with
    | none => simp [processLink, anchorLink, h, hp]
    | some u => simp [processLink, anchorLink, h, hp]

theorem processLink_internalLinks (lib : URLLib) (n : NodeTree) (d : CrawlData) (base : GoURL) :
    (processLink lib n d base).internalLinks =
      d.internalLinks + (anchorLink lib base n).toList.countP (fun l => l.linkType == "internal") := by
  by_cases h : getHref (nodeAttrs n) = ""
  · simp [processLink, anchorLink, h]
  · cases hp : lib.parse (getHref (nodeAttrs n)) with
    | none => simp [processLink, anchorLink, h, hp]
    | some u =>
      by_cases hq : (lib.resolveReference base u).host = base.host <;>
        simp [processLink, anchorLink, h, hp, hq, List.countP_cons]

theorem processLink_externalLinks (lib : URLLib) (n : NodeTree) (d : CrawlData) (base : GoURL) :
    (processLink lib n d base).externalLinks =
      d.externalLinks + (anchorLink lib base n).toList.countP (fun l => !(l.linkType == "internal")) := by
  by_cases h : getHref (nodeAttrs n) = ""
  · simp [processLink, anchorLink, h]
  · cases hp : lib.parse (getHref (nodeAttrs n)) with
    | none => simp [processLink, anchorLink, h, hp]
    | some u =>
      by_cases hq : (lib.resolveReference base u).host = base.host <;>
        simp [processLink, anchorLink, h, hp, hq, List.countP_cons]

theorem processLink_brokenLinks (lib : URLLib) (n : NodeTree) (d : CrawlData) (base : GoURL) :
    (processLink lib n d base).brokenLinks = d.brokenLinks := by
  by_cases h : getHref (nodeAttrs n) = ""
  · simp [processLink, h]
  · cases hp : lib.parse (getHref (nodeAttrs n)) with
    | none => simp [processLink, h, hp]
    | some u => simp [processLink, h, hp]

theorem processLink_headingCounts (lib : URLLib) (n : NodeTree) (d : CrawlData) (base : GoURL) :
    (processLink lib n d base).headingCounts = d.headingCounts := by
  by_cases h : getHref (nodeAttrs n) = ""
  · simp [processLink, h]
  · cases hp : lib.parse (getHref (nodeAttrs n)) with
    | none => simp [processLink, h, hp]
    | some u => simp [processLink, h, hp]

theorem anchorLink_shape (lib : URLLib) (base : GoURL) (n : NodeTree) (l : Link)
    (ha : anchorLink lib base n = some l) :
    l.isAccessible = true ∧ l.statusCode = 0 ∧
      (l.linkType = "internal" ∨ l.linkType = "external") := by
  by_cases hh : getHref (nodeAttrs n) = ""
  · simp [anchorLink, hh] at ha
  · cases hp : lib.parse (getHref (nodeAttrs n)) with
    | none => simp [anchorLink, hh, hp] at ha
    | some u =>
      simp [anchorLink, hh, hp] at ha
      by_cases hq : (lib.resolveReference base u).host = base.host <;>
        simp [← ha, hq]

theorem titleVisit_links (fc : NodeTree) (d : CrawlData) :
    (titleVisit fc d).links = d.links := by
  unfold titleVisit; split <;> (try split) <;> rfl

theorem titleVisit_internalLinks (fc : NodeTree) (d : CrawlData) :
    (titleVisit fc d).internalLinks = d.internalLinks := by
  unfold titleVisit; split <;> (try split) <;> rfl

theorem titleVisit_externalLinks (fc : NodeTree) (d : CrawlData) :
    (titleVisit fc d).externalLinks = d.externalLinks := by
  unfold titleVisit; split <;> (try split) <;> rfl

theorem titleVisit_brokenLinks (fc : NodeTree) (d : CrawlData) :
    (titleVisit fc d).brokenLinks = d.brokenLinks := by
  unfold titleVisit; split <;> (try split) <;> rfl

theorem titleVisit_headingCounts (fc : NodeTree) (d : CrawlData) :
    (titleVisit fc d).headingCounts = d.headingCounts := by
  unfold titleVisit; split <;> (try split) <;> rfl

theorem visitNode_links (lib : URLLib) (n : NodeTree) (d : CrawlData) (base : GoURL) :
    (visitNode lib n d base).links = d.links ++ nodeLinks lib base n := by
  cases n with
  | nil => simp [visitNode, nodeLinks, isTagNode]
  | mk t dat attrs fc ns =>
    by_cases ht : t = NodeType.elementNode
    · subst ht
      simp only [visitNode, if_pos]
      split <;>
        simp_all [nodeLinks, isTagNode, processLink_links, checkLoginForm_links,
          titleVisit_links, detectHTMLVersion]
    · simp [visitNode, ht, nodeLinks, isTagNode]

theorem visitNode_internalLinks (lib : URLLib) (n : NodeTree) (d : CrawlData) (base : GoURL) :
    (visitNode lib n d base).internalLinks =
      d.internalLinks + (nodeLinks lib base n).countP (fun l => l.linkType == "internal") := by
  cases n with
  | nil => simp [visitNode, nodeLinks, isTagNode]
  | mk t dat attrs fc ns =>
    by_cases ht : t = NodeType.elementNode
    · subst ht
      simp only [visitNode, if_pos]
      split <;>
        simp_all [nodeLinks, isTagNode, processLink_internalLinks, checkLoginForm_internalLinks,
          titleVisit_internalLinks, detectHTMLVersion]
    · simp [visitNode, ht, nodeLinks, isTagNode]

theorem visitNode_externalLinks (lib : URLLib) (n : NodeTree) (d : CrawlData) (base : GoURL) :
    (visitNode lib n d base).externalLinks =
      d.externalLinks + (nodeLinks lib base n).countP (fun l => !(l.linkType == "internal")) := by
  cases n with
  | nil => simp [visitNode, nodeLinks, isTagNode]
  | mk t dat attrs fc ns =>
    by_cases ht : t = NodeType.elementNode
    · subst ht
      simp only [visitNode, if_pos]
      split <;>
        simp_all [nodeLinks, isTagNode, processLink_externalLinks, checkLoginForm_externalLinks,
          titleVisit_externalLinks, detectHTMLVersion]
    · simp [visitNode, ht, nodeLinks, isTagNode]

theorem visitNode_brokenLinks (lib : URLLib) (n : NodeTree) (d : CrawlData) (base : GoURL) :
    (visitNode lib n d base).brokenLinks = d.brokenLinks := by
  cases n with
  | nil => simp [visitNode]
  | mk t dat attrs fc ns =>
    by_cases ht : t = NodeType.elementNode
    · subst ht
      simp only [visitNode, if_pos]
      split <;>
        simp_all [processLink_brokenLinks, checkLoginForm_brokenLinks,
          titleVisit_brokenLinks, detectHTMLVersion]
    · simp [visitNode, ht]

theorem visitNode_h1 (lib : URLLib) (n : NodeTree) (d : CrawlData) (base : GoURL) :
    (visitNode lib n d base).headingCounts.h1 =
      d.headingCounts.h1 + (if isTagNode "h1" n then 1 else 0) := by
  cases n with
  | nil => simp [visitNode, isTagNode]
  | mk t dat attrs fc ns =>
    by_cases ht : t = NodeType.elementNode
    · subst ht
      simp only [visitNode, if_pos]
      split <;>
        simp_all [isTagNode, processLink_headingCounts, checkLoginForm_headingCounts,
          titleVisit_headingCounts, detectHTMLVersion]
    · simp [visitNode, ht, isTagNode]

theorem visitNode_h2 (lib : URLLib) (n : NodeTree) (d : CrawlData) (base : GoURL) :
    (visitNode lib n d base).headingCounts.h2 =
      d.headingCounts.h2 + (if isTagNode "h2" n then 1 else 0) := by
  cases n with
  | nil => simp [visitNode, isTagNode]
  | mk t dat attrs fc ns =>
    by_cases ht : t = NodeType.elementNode
    · subst ht
      simp only [visitNode, if_pos]
      split <;>
        simp_all [isTagNode, processLink_headingCounts, checkLoginForm_headingCounts,
          titleVisit_headingCounts, detectHTMLVersion]
    · simp [visitNode, ht, isTagNode]

theorem visitNode_h3 (lib : URLLib) (n : NodeTree) (d : CrawlData) (base : GoURL) :
    (visitNode lib n d base).headingCounts.h3 =
      d.headingCounts.h3 + (if isTagNode "h3" n then 1 else 0) := by
  cases n with
  | nil => simp [visitNode, isTagNode]
  | mk t dat attrs fc ns =>
    by_cases ht : t = NodeType.elementNode
    · subst ht
      simp only [visitNode, if_pos]
      split <;>
        simp_all [isTagNode, processLink_headingCounts, checkLoginForm_headingCounts,
          titleVisit_headingCounts, detectHTMLVersion]
    · simp [visitNode, ht, isTagNode]

theorem visitNode_h4 (lib : URLLib) (n : NodeTree) (d : CrawlData) (base : GoURL) :
    (visitNode lib n d base).headingCounts.h4 =
      d.headingCounts.h4 + (if isTagNode "h4" n then 1 else 0) := by
  cases n with
  | nil => simp [visitNode, isTagNode]
  | mk t dat attrs fc ns =>
    by_cases ht : t = NodeType.elementNode
    · subst ht
      simp only [visitNode, if_pos]
      split <;>
        simp_all [isTagNode, processLink_headingCounts, checkLoginForm_headingCounts,
          titleVisit_headingCounts, detectHTMLVersion]
    · simp [visitNode, ht, isTagNode]

theorem visitNode_h5 (lib : URLLib) (n : NodeTree) (d : CrawlData) (base : GoURL) :
    (visitNode lib n d base).headingCounts.h5 =
      d.headingCounts.h5 + (if isTagNode "h5" n then 1 else 0) := by
  cases n with
  | nil => simp [visitNode, isTagNode]
  | mk t dat attrs fc ns =>
    by_cases ht : t = NodeType.elementNode
    · subst ht
      simp only [visitNode, if_pos]
      split <;>
        simp_all [isTagNode, processLink_headingCounts, checkLoginForm_headingCounts,
          titleVisit_headingCounts, detectHTMLVersion]
    · simp [visitNode, ht, isTagNode]

theorem visitNode_h6 (lib : URLLib) (n : NodeTree) (d : CrawlData) (base : GoURL) :
    (visitNode lib n d base).headingCounts.h6 =
      d.headingCounts.h6 + (if isTagNode "h6" n then 1 else 0) := by
  cases n with
  | nil => simp [visitNode, isTagNode]
  | mk t dat attrs fc ns =>
    by_cases ht : t = NodeType.elementNode
    · subst ht
      simp only [visitNode, if_pos]
      split <;>
        simp_all [isTagNode, processLink_headingCounts, checkLoginForm_headingCounts,
          titleVisit_headingCounts, detectHTMLVersion]
    · simp [visitNode, ht, isTagNode]

/-! The traversal as a single pass over the preorder node list, and its
effect on each aggregate. -/

theorem traverseChain_eq_foldl (lib : URLLib) (base : GoURL) (n : NodeTree) (d : CrawlData) :
    traverseChain lib n d base =
      (preorderChain n).foldl (fun acc m => visitNode lib m acc base) d := by
  induction n generalizing d with
  | nil => rfl
  | mk t dat attrs fc ns ihf ihn =>
    simp [traverseChain, preorderChain, List.foldl_append, ihf, ihn]

theorem preorderChain_length (n : NodeTree) :
    (preorderChain n).length = nodeCountChain n := by
  induction n with
  | nil => rfl
  | mk t dat attrs fc ns ihf ihn =>
    simp [preorderChain, nodeCountChain, ihf, ihn]
    omega

theorem traverseChain_links (lib : URLLib) (base : GoURL) (n : NodeTree) (d : CrawlData) :
    (traverseChain lib n d base).links =
      d.links ++ ((preorderChain n).map (nodeLinks lib base)).flatten := by
  induction n generalizing d with
  | nil => simp [traverseChain, preorderChain]
  | mk t dat attrs fc ns ihf ihn =>
    simp [traverseChain, preorderChain, ihf, ihn, visitNode_links,
      List.map_append, List.flatten_append]

theorem traverseChain_internalLinks (lib : URLLib) (base : GoURL) (n : NodeTree) (d : CrawlData) :
    (traverseChain lib n d base).internalLinks =
      d.internalLinks +
        (((preorderChain n).map (nodeLinks lib base)).flatten.countP (fun l => l.linkType == "internal")) := by
  induction n generalizing d with
  | nil => simp [traverseChain, preorderChain]
  | mk t dat attrs fc ns ihf ihn =>
    simp [traverseChain, preorderChain, ihf, ihn, visitNode_internalLinks,
      List.map_append, List.flatten_append, List.countP_append]
    omega

theorem traverseChain_externalLinks (lib : URLLib) (base : GoURL) (n : NodeTree) (d : CrawlData) :
    (traverseChain lib n d base).externalLinks =
      d.externalLinks +
        (((preorderChain n).map (nodeLinks lib base)).flatten.countP (fun l => !(l.linkType == "internal"))) := by
  induction n generalizing d with
  | nil => simp [traverseChain, preorderChain]
  | mk t dat attrs fc ns ihf ihn =>
    simp [traverseChain, preorderChain, ihf, ihn, visitNode_externalLinks,
      List.map_append, List.flatten_append, List.countP_append]
    omega

theorem traverseChain_brokenLinks (lib : URLLib) (base : GoURL) (n : NodeTree) (d : CrawlData) :
    (traverseChain lib n d base).brokenLinks = d.brokenLinks := by
  induction n generalizing d with
  | nil => rfl
  | mk t dat attrs fc ns ihf ihn =>
    simp [traverseChain, ihf, ihn, visitNode_brokenLinks]

theorem traverseChain_h1 (lib : URLLib) (base : GoURL) (n : NodeTree) (d : CrawlData) :
    (traverseChain lib n d base).headingCounts.h1 =
      d.headingCounts.h1 + (preorderChain n).countP (fun m => isTagNode "h1" m) := by
  induction n generalizing d with
  | nil => simp [traverseChain, preorderChain]
  | mk t dat attrs fc ns ihf ihn =>
    simp [traverseChain, preorderChain, ihf, ihn, visitNode_h1,
      List.countP_append, List.countP_cons]
    omega

theorem traverseChain_h2 (lib : URLLib) (base : GoURL) (n : NodeTree) (d : CrawlData) :
    (traverseChain lib n d base).headingCounts.h2 =
      d.headingCounts.h2 + (preorderChain n).countP (fun m => isTagNode "h2" m) := by
  induction n generalizing d with
  | nil => simp [traverseChain, preorderChain]
  | mk t dat attrs fc ns ihf ihn =>
    simp [traverseChain, preorderChain, ihf, ihn, visitNode_h2,
      List.countP_append, List.countP_cons]
    omega

theorem traverseChain_h3 (lib : URLLib) (base : GoURL) (n : NodeTree) (d : CrawlData) :
    (traverseChain lib n d base).headingCounts.h3 =
      d.headingCounts.h3 + (preorderChain n).countP (fun m => isTagNode "h3" m) := by
  induction n generalizing d with
  | nil => simp [traverseChain, preorderChain]
  | mk t dat attrs fc ns ihf ihn =>
    simp [traverseChain, preorderChain, ihf, ihn, visitNode_h3,
      List.countP_append, List.countP_cons]
    omega

theorem traverseChain_h4 (lib : URLLib) (base : GoURL) (n : NodeTree) (d : CrawlData) :
    (traverseChain lib n d base).headingCounts.h4 =
      d.headingCounts.h4 + (preorderChain n).countP (fun m => isTagNode "h4" m) := by
  induction n generalizing d with
  | nil => simp [traverseChain, preorderChain]
  | mk t dat attrs fc ns ihf ihn =>
    simp [traverseChain, preorderChain, ihf, ihn, visitNode_h4,
      List.countP_append, List.countP_cons]
    omega

theorem traverseChain_h5 (lib : URLLib) (base : GoURL) (n : NodeTree) (d : CrawlData) :
    (traverseChain lib n d base).headingCounts.h5 =
      d.headingCounts.h5 + (preorderChain n).countP (fun m => isTagNode "h5" m) := by
  induction n generalizing d with
  | nil => simp [traverseChain, preorderChain]
  | mk t dat attrs fc ns ihf ihn =>
    simp [traverseChain, preorderChain, ihf, ihn, visitNode_h5,
      List.countP_append, List.countP_cons]
    omega

theorem traverseChain_h6 (lib : URLLib) (base : GoURL) (n : NodeTree) (d : CrawlData) :
    (traverseChain lib n d base).headingCounts.h6 =
      d.headingCounts.h6 + (preorderChain n).countP (fun m => isTagNode "h6" m) := by
  induction n generalizing d with
  | nil => simp [traverseChain, preorderChain]
  | mk t dat attrs fc ns ihf ihn =>
    simp [traverseChain, preorderChain, ihf, ihn, visitNode_h6,
      List.countP_append, List.countP_cons]
    omega

/-! Lemmas about the accessibility-checking loop. -/

theorem countP_not_add {α : Type} (p : α → Bool) (l : List α) :
    l.countP p + l.countP (fun a => !(p a)) = l.length := by
  induction l with
  | nil => rfl
  | cons x xs ih => cases h : p x <;> simp [List.countP_cons, h] <;> omega

theorem checkOne_linkType (world : World) (l : Link) :
    (checkOne world l).1.linkType = l.linkType := by
  unfold checkOne
  split
  · rfl
  · split
    · rfl
    · split <;> rfl

theorem checkOne_broken (world : World) (l : Link) (h : l.isAccessible = true) :
    (checkOne world l).2.1 = (if (checkOne world l).1.isAccessible then 0 else 1) := by
  unfold checkOne
  split
  · simp [h]
  · split
    · simp
    · split <;> simp [h]

theorem checkOne_broken_le (world : World) (l : Link) :
    (checkOne world l).2.1 ≤ (if l.linkType = "internal" then 0 else 1) := by
  unfold checkOne
  split
  next h => simp [h]
  next h =>
    split
    · simp [h]
    · split <;> simp [h]

theorem checkOne_trace (world : World) (l : Link) :
    (checkOne world l).2.2 = (if l.linkType = "internal" then [] else [Request.head l.linkURL]) := by
  unfold checkOne
  split
  next h => simp [h]
  next h =>
    split
    · simp [h]
    · split <;> simp [h]

theorem checkOne_internal (world : World) (l : Link) (h : l.linkType = "internal") :
    (checkOne world l).1 = { l with statusCode := 200 } := by
  unfold checkOne
  simp [h]

theorem checkLinks_fst (world : World) (L : List Link) :
    (checkLinks world L).1 = L.map (fun l => (checkOne world l).1) := by
  induction L with
  | nil => rfl
  | cons x xs ih => simp [checkLinks, ih]

theorem checkLinks_length (world : World) (L : List Link) :
    (checkLinks world L).1.length = L.length := by
  rw [checkLinks_fst]; simp

theorem checkLinks_types (world : World) (L : List Link) :
    (checkLinks world L).1.map (fun l => l.linkType) = L.map (fun l => l.linkType) := by
  rw [checkLinks_fst]
  simp [List.map_map, Function.comp, checkOne_linkType]

theorem checkLinks_broken_countP (world : World) (L : List Link)
    (hacc : ∀ l ∈ L, l.isAccessible = true) :
    (checkLinks world L).2.1 = (checkLinks world L).1.countP (fun l => !l.isAccessible) := by
  induction L with
  | nil => rfl
  | cons x xs ih =>
    have hx := hacc x (List.mem_cons_self x xs)
    have ih2 := ih (fun l hl => hacc l (List.mem_cons_of_mem x hl))
    simp only [checkLinks, List.countP_cons, ih2, checkOne_broken world x hx]
    cases hb : (checkOne world x).1.isAccessible <;> simp [hb] <;> omega

theorem checkLinks_broken_le (world : World) (L : List Link) :
    (checkLinks world L).2.1 ≤ L.countP (fun l => !(l.linkType == "internal")) := by
  induction L with
  | nil => simp [checkLinks]
  | cons x xs ih =>
    have h1 := checkOne_broken_le world x
    simp only [checkLinks, List.countP_cons]
    by_cases hi : x.linkType = "internal" <;> simp [hi] at h1 ⊢ <;> omega

theorem checkLinks_trace_filter (world : World) (L : List Link) :
    (checkLinks world L).2.2 =
      (L.filter (fun l => !(l.linkType == "internal"))).map (fun l => Request.head l.linkURL) := by
  induction L with
  | nil => rfl
  | cons x xs ih =>
    simp only [checkLinks, ih, checkOne_trace, List.filter_cons]
    by_cases hi : x.linkType = "internal" <;> simp [hi]

theorem checkLinks_internal_ok (world : World) (L : List Link)
    (hacc : ∀ l ∈ L, l.isAccessible = true) :
    ∀ l ∈ (checkLinks world L).1,
      l.linkType = "internal" → l.statusCode = 200 ∧ l.isAccessible = true := by
  intro l hl hint
  rw [checkLinks_fst] at hl
  simp only [List.mem_map] at hl
  obtain ⟨x, hx, hlx⟩ := hl
  subst hlx
  have hxt : x.linkType = "internal" := by
    rw [← checkOne_linkType world x]; exact hint
  rw [checkOne_internal world x hxt]
  exact ⟨rfl, hacc x hx⟩

/-! Shape of the links collected by the traversal. -/

theorem nodeLinks_shape (lib : URLLib) (base : GoURL) (n : NodeTree) (l : Link)
    (hm : l ∈ nodeLinks lib base n) :
    l.isAccessible = true ∧ l.statusCode = 0 ∧
      (l.linkType = "internal" ∨ l.linkType = "external") := by
  unfold nodeLinks at hm
  by_cases ht : isTagNode "a" n = true
  · rw [if_pos ht] at hm
    cases ha : anchorLink lib base n with
    | none => rw [ha] at hm; simp at hm
    | some x =>
      rw [ha] at hm
      simp at hm
      subst hm
      exact anchorLink_shape lib base n l ha
  · rw [if_neg ht] at hm; simp at hm

theorem collected_shape (lib : URLLib) (base : GoURL) (L : List NodeTree) (l : Link)
    (hm : l ∈ (L.map (nodeLinks lib base)).flatten) :
    l.isAccessible = true ∧ l.statusCode = 0 ∧
      (l.linkType = "internal" ∨ l.linkType = "external") := by
  simp only [List.mem_flatten, List.mem_map] at hm
  obtain ⟨li, ⟨n, hn, hln⟩, hl⟩ := hm
  subst hln
  exact nodeLinks_shape lib base n l hl

/-! Projection lemmas for traverseHTML and further plumbing. -/

theorem traverseHTML_links (lib : URLLib) (base : GoURL) (n : NodeTree) (d : CrawlData) :
    (traverseHTML lib n d base).links =
      d.links ++ ((preorderHTML n).map (nodeLinks lib base)).flatten := by
  cases n with
  | nil => simp [traverseHTML, preorderHTML]
  | mk t dat attrs fc ns =>
    simp [traverseHTML, preorderHTML, traverseChain_links, visitNode_links]

theorem traverseHTML_internalLinks (lib : URLLib) (base : GoURL) (n : NodeTree) (d : CrawlData) :
    (traverseHTML lib n d base).internalLinks =
      d.internalLinks +
        (((preorderHTML n).map (nodeLinks lib base)).flatten.countP (fun l => l.linkType == "internal")) := by
  cases n with
  | nil => simp [traverseHTML, preorderHTML]
  | mk t dat attrs fc ns =>
    simp [traverseHTML, preorderHTML, traverseChain_internalLinks, visitNode_internalLinks,
      List.countP_append]
    omega

theorem traverseHTML_externalLinks (lib : URLLib) (base : GoURL) (n : NodeTree) (d : CrawlData) :
    (traverseHTML lib n d base).externalLinks =
      d.externalLinks +
        (((preorderHTML n).map (nodeLinks lib base)).flatten.countP (fun l => !(l.linkType == "internal"))) := by
  cases n with
  | nil => simp [traverseHTML, preorderHTML]
  | mk t dat attrs fc ns =>
    simp [traverseHTML, preorderHTML, traverseChain_externalLinks, visitNode_externalLinks,
      List.countP_append]
    omega

theorem traverseHTML_brokenLinks (lib : URLLib) (base : GoURL) (n : NodeTree) (d : CrawlData) :
    (traverseHTML lib n d base).brokenLinks = d.brokenLinks := by
  cases n with
  | nil => rfl
  | mk t dat attrs fc ns =>
    simp [traverseHTML, traverseChain_brokenLinks, visitNode_brokenLinks]

theorem checkOne_linkURL (world : World) (l : Link) :
    (checkOne world l).1.linkURL = l.linkURL := by
  unfold checkOne
  split
  · rfl
  · split
    · rfl
    · split <;> rfl

theorem filter_map_congr {α β : Type} (f : α → α) (p : α → Bool) (h : α → β)
    (hp : ∀ a, p (f a) = p a) (hh : ∀ a, h (f a) = h a) (L : List α) :
    ((L.map f).filter p).map h = (L.filter p).map h := by
  induction L with
  | nil => rfl
  | cons x xs ih =>
    cases hx : p x <;> simp [List.filter_cons, hp, hx, hh, ih]

theorem string_append_ne_empty (s t : String) (hs : s.data ≠ []) : ¬ (s ++ t) = "" := by
  intro hc
  apply hs
  have h2 : s.data ++ t.data = ([] : List Char) := by
    rw [← String.data_append, hc]
  exact (List.append_eq_nil.mp h2).1

/-! Claim theorems. -/

/-- C6 (counterexample): it is not the case that all four tables — users,
urls, crawls and links — carry the deleted_at soft-delete timestamp
column: the crawls and links tables lack it. -/
theorem crawls_links_lack_soft_delete :
    ¬ (hasSoftDeleteColumn usersColumns = true ∧ hasSoftDeleteColumn urlsColumns = true ∧
       hasSoftDeleteColumn crawlsColumns = true ∧ hasSoftDeleteColumn linksColumns = true) := by
  decide

/-- C6 (amended): the users and urls tables carry the deleted_at
soft-delete timestamp column, so their deletes are soft; the crawls and
links tables do not, so deleting their rows is physical. -/
theorem soft_delete_columns_exact :
    hasSoftDeleteColumn usersColumns = true ∧ hasSoftDeleteColumn urlsColumns = true ∧
    hasSoftDeleteColumn crawlsColumns = false ∧ hasSoftDeleteColumn linksColumns = false := by
  decide

/-- C1: for every anchor node with a non-empty href that net/url parses,
processLink appends exactly one link, classified "internal" exactly when
the href resolved against the base URL has the base URL's host, and
"external" otherwise. -/
theorem processLink_classification (lib : URLLib) (n : NodeTree) (d : CrawlData) (base : GoURL)
    (u : GoURL) (hhref : ¬ getHref (nodeAttrs n) = "")
    (hparse : lib.parse (getHref (nodeAttrs n)) = some u) :
    ∃ l : Link,
      (processLink lib n d base).links = d.links ++ [l] ∧
      (l.linkType = "internal" ↔ (lib.resolveReference base u).host = base.host) ∧
      (¬ (lib.resolveReference base u).host = base.host → l.linkType = "external") := by
  refine ⟨{ urlID := 0, crawlID := 0, linkURL := (lib.resolveReference base u).render,
            linkText := getLinkText n,
            linkType := if (lib.resolveReference base u).host = base.host then "internal" else "external",
            statusCode := 0, isAccessible := true }, ?_, ?_, ?_⟩
  · simp [processLink, hhref, hparse]
  · by_cases hq : (lib.resolveReference base u).host = base.host <;> simp [hq]
  · intro hq; simp [hq]

/-- C1 (witness): the classification theorem evaluated on the concrete
external anchor of the sample page. -/
theorem processLink_classification_witness :
    (¬ getHref (nodeAttrs sampleAnchorExt) = "" ∧
      sampleLib.parse (getHref (nodeAttrs sampleAnchorExt)) =
        some { host := "b.com", render := "http://b.com/x" }) ∧
    (∃ l : Link,
      (processLink sampleLib sampleAnchorExt emptyCrawlData sampleBase).links =
        emptyCrawlData.links ++ [l] ∧
      (l.linkType = "internal" ↔
        (sampleLib.resolveReference sampleBase { host := "b.com", render := "http://b.com/x" }).host =
          sampleBase.host) ∧
      (¬ (sampleLib.resolveReference sampleBase { host := "b.com", render := "http://b.com/x" }).host =
          sampleBase.host → l.linkType = "external")) :=
  ⟨⟨by decide, by decide⟩,
    processLink_classification sampleLib sampleAnchorExt emptyCrawlData sampleBase
      { host := "b.com", render := "http://b.com/x" } (by decide) (by decide)⟩

/-- C7: the HTML traversal is a terminating single pass — it equals a fold
of the per-node visit over the preorder node list, whose length is the
node count of the tree, and each heading counter grows by exactly the
number of matching heading elements. -/
theorem traverseHTML_single_pass (lib : URLLib) (base : GoURL) (n : NodeTree) (d : CrawlData) :
    traverseHTML lib n d base =
      (preorderHTML n).foldl (fun acc m => visitNode lib m acc base) d ∧
    (preorderHTML n).length = nodeCountHTML n ∧
    (traverseHTML lib n d base).headingCounts.h1 =
      d.headingCounts.h1 + (preorderHTML n).countP (fun m => isTagNode "h1" m) ∧
    (traverseHTML lib n d base).headingCounts.h2 =
      d.headingCounts.h2 + (preorderHTML n).countP (fun m => isTagNode "h2" m) ∧
    (traverseHTML lib n d base).headingCounts.h3 =
      d.headingCounts.h3 + (preorderHTML n).countP (fun m => isTagNode "h3" m) ∧
    (traverseHTML lib n d base).headingCounts.h4 =
      d.headingCounts.h4 + (preorderHTML n).countP (fun m => isTagNode "h4" m) ∧
    (traverseHTML lib n d base).headingCounts.h5 =
      d.headingCounts.h5 + (preorderHTML n).countP (fun m => isTagNode "h5" m) ∧
    (traverseHTML lib n d base).headingCounts.h6 =
      d.headingCounts.h6 + (preorderHTML n).countP (fun m => isTagNode "h6" m) := by
  cases n with
  | nil => simp [traverseHTML, preorderHTML, nodeCountHTML]
  | mk t dat attrs fc ns =>
    refine ⟨?_, ?_, ?_, ?_, ?_, ?_, ?_, ?_⟩
    · simp [traverseHTML, preorderHTML, traverseChain_eq_foldl]
    · simp [preorderHTML, nodeCountHTML, preorderChain_length]
      omega
    · simp [traverseHTML, preorderHTML, traverseChain_h1, visitNode_h1, List.countP_cons]
      omega
    · simp [traverseHTML, preorderHTML, traverseChain_h2, visitNode_h2, List.countP_cons]
      omega
    · simp [traverseHTML, preorderHTML, traverseChain_h3, visitNode_h3, List.countP_cons]
      omega
    · simp [traverseHTML, preorderHTML, traverseChain_h4, visitNode_h4, List.countP_cons]
      omega
    · simp [traverseHTML, preorderHTML, traverseChain_h5, visitNode_h5, List.countP_cons]
      omega
    · simp [traverseHTML, preorderHTML, traverseChain_h6, visitNode_h6, List.countP_cons]
      omega

/-- C9: when the submitted URL already exists in the urls table (even
soft-deleted), CreateURL returns the existing row with its deletion
timestamp cleared and its status reset to pending, and starts a crawl for
it — no duplicate-key error reaches the caller. -/
theorem createURL_reuses_existing (db : DB) (u : String) (r0 : URLRow)
    (hf : db.rows.find? (fun r => r.url == u) = some r0) :
    (createURL db u).result = Except.ok { r0 with deletedAtValid := false, status := "pending" } ∧
    (createURL db u).startedCrawls = [r0.id] := by
  have hmem : r0 ∈ db.rows := List.mem_of_find?_eq_some hf
  have hr0 := List.find?_some hf
  have hany : db.rows.any (fun r => r.url == u) = true :=
    List.any_eq_true.mpr ⟨r0, hmem, hr0⟩
  have hdup : dbCreateURL db u = Except.error "Error 1062 (23000): Duplicate entry" := by
    unfold dbCreateURL
    rw [if_pos hany]
  simp only [createURL, hdup]
  rw [if_pos (by decide)]
  simp only [hf]
  obtain ⟨i, ur, st, del⟩ := r0
  by_cases hdel : del <;> simp [hdel]

/-- C9 (witness): CreateURL evaluated on the concrete table holding a
soft-deleted row for the resubmitted URL. -/
theorem createURL_reuses_existing_witness :
    sampleDB.rows.find? (fun r => r.url == "http://a.com/") = some sampleRow ∧
    ((createURL sampleDB "http://a.com/").result =
        Except.ok { sampleRow with deletedAtValid := false, status := "pending" } ∧
      (createURL sampleDB "http://a.com/").startedCrawls = [sampleRow.id]) :=
  ⟨by decide, createURL_reuses_existing sampleDB "http://a.com/" sampleRow (by decide)⟩

theorem getURLsParams_limit (lq oq sq ordq : Option String) :
    (getURLsParams lq oq sq ordq).limit =
      (match goAtoi (lq.getD "20") with
       | none => 20
       | some v => if v ≤ 0 ∨ 100 < v then 20 else v) := rfl

theorem getURLsParams_offset (lq oq sq ordq : Option String) :
    (getURLsParams lq oq sq ordq).offset =
      (match goAtoi (oq.getD "0") with
       | none => 0
       | some v => if v < 0 then 0 else v) := rfl

theorem getURLsParams_sortBy (lq oq sq ordq : Option String) :
    (getURLsParams lq oq sq ordq).sortBy =
      (if validSortColumns.contains (sq.getD "updated_at") then sq.getD "updated_at"
       else "updated_at") := rfl

theorem getURLsParams_sortOrder (lq oq sq ordq : Option String) :
    (getURLsParams lq oq sq ordq).sortOrder =
      (if (ordq.getD "desc") = "asc" ∨ (ordq.getD "desc") = "desc" then ordq.getD "desc"
       else "desc") := rfl

/-- C10: the URL-listing handler always hands sanitized parameters to the
query layer — the limit lies in 1..100 and falls back to 20 when absent,
non-numeric, non-positive or above 100; the offset is non-negative and
falls back to 0; the sort column is always whitelisted, defaulting to
updated_at; and the sort order is always asc or desc, defaulting to desc. -/
theorem getURLsParams_sanitized (lq oq sq ordq : Option String) :
    (1 ≤ (getURLsParams lq oq sq ordq).limit ∧ (getURLsParams lq oq sq ordq).limit ≤ 100) ∧
    (lq = none → (getURLsParams lq oq sq ordq).limit = 20) ∧
    (∀ s, lq = some s → goAtoi s = none → (getURLsParams lq oq sq ordq).limit = 20) ∧
    (∀ s v, lq = some s → goAtoi s = some v → (v ≤ 0 ∨ 100 < v) →
      (getURLsParams lq oq sq ordq).limit = 20) ∧
    (0 ≤ (getURLsParams lq oq sq ordq).offset) ∧
    (oq = none → (getURLsParams lq oq sq ordq).offset = 0) ∧
    (∀ s, oq = some s → goAtoi s = none → (getURLsParams lq oq sq ordq).offset = 0) ∧
    (∀ s v, oq = some s → goAtoi s = some v → v < 0 → (getURLsParams lq oq sq ordq).offset = 0) ∧
    (validSortColumns.contains (getURLsParams lq oq sq ordq).sortBy = true) ∧
    (sq = none → (getURLsParams lq oq sq ordq).sortBy = "updated_at") ∧
    (∀ s, sq = some s → validSortColumns.contains s = false →
      (getURLsParams lq oq sq ordq).sortBy = "updated_at") ∧
    ((getURLsParams lq oq sq ordq).sortOrder = "asc" ∨
      (getURLsParams lq oq sq ordq).sortOrder = "desc") ∧
    (ordq = none → (getURLsParams lq oq sq ordq).sortOrder = "desc") ∧
    (∀ s, ordq = some s → ¬ s = "asc" → ¬ s = "desc" →
      (getURLsParams lq oq sq ordq).sortOrder = "desc") := by
  refine ⟨⟨?_, ?_⟩, ?_, ?_, ?_, ?_, ?_, ?_, ?_, ?_, ?_, ?_, ?_, ?_, ?_⟩
  · rw [getURLsParams_limit]
    cases h : goAtoi (lq.getD "20") with
    | none => simp
    | some v =>
      by_cases hv : v ≤ 0 ∨ 100 < v
      · simp [hv]
      · simp [hv]
        omega
  · rw [getURLsParams_limit]
    cases h : goAtoi (lq.getD "20") with
    | none => simp
    | some v =>
      by_cases hv : v ≤ 0 ∨ 100 < v
      · simp [hv]
      · simp [hv]
        omega
  · intro h; subst h; rw [getURLsParams_limit]; decide
  · intro s hs hn; subst hs; rw [getURLsParams_limit]; simp [hn]
  · intro s v hs hv hr; subst hs; rw [getURLsParams_limit]; simp [hv, hr]
  · rw [getURLsParams_offset]
    cases h : goAtoi (oq.getD "0") with
    | none => simp
    | some v =>
      by_cases hv : v < 0
      · simp [hv]
      · simp [hv]
        omega
  · intro h; subst h; rw [getURLsParams_offset]; decide
  · intro s hs hn; subst hs; rw [getURLsParams_offset]; simp [hn]
  · intro s v hs hv hr; subst hs; rw [getURLsParams_offset]; simp [hv, hr]
  · rw [getURLsParams_sortBy]
    by_cases hc : validSortColumns.contains (sq.getD "updated_at") = true
    · rw [if_pos hc]; exact hc
    · rw [if_neg hc]; decide
  · intro h; subst h; rw [getURLsParams_sortBy]; decide
  · intro s hs hc; subst hs
    rw [getURLsParams_sortBy]
    simp only [Option.getD_some]
    rw [if_neg (by simpa using hc)]
  · rw [getURLsParams_sortOrder]
    by_cases h : (ordq.getD "desc") = "asc" ∨ (ordq.getD "desc") = "desc"
    · rw [if_pos h]; exact h
    · rw [if_neg h]; right; rfl
  · intro h; subst h; rw [getURLsParams_sortOrder]; decide
  · intro s hs h1 h2; subst hs
    rw [getURLsParams_sortOrder]
    simp only [Option.getD_some]
    have hno : ¬ (s = "asc" ∨ s = "desc") := fun hor => hor.elim h1 h2
    rw [if_neg hno]

/-- C10 (witness): the sanitizer evaluated on a non-numeric limit, a
negative offset, an unknown sort column and an unknown sort order. -/
theorem getURLsParams_sanitized_witness :
    (getURLsParams (some "abc") (some "-3") (some "bogus") (some "up")).limit = 20 ∧
    (getURLsParams (some "abc") (some "-3") (some "bogus") (some "up")).offset = 0 ∧
    (getURLsParams (some "abc") (some "-3") (some "bogus") (some "up")).sortBy = "updated_at" ∧
    (getURLsParams (some "abc") (some "-3") (some "bogus") (some "up")).sortOrder = "desc" := by
  have h := getURLsParams_sanitized (some "abc") (some "-3") (some "bogus") (some "up")
  obtain ⟨-, -, h3, -, -, -, -, h8, -, -, h11, -, -, h14⟩ := h
  exact ⟨h3 "abc" rfl (by decide), h8 "-3" (-3) rfl (by decide) (by decide),
    h11 "bogus" rfl (by decide), h14 "up" rfl (by decide) (by decide)⟩

theorem data_append_ne_nil (s t : String) (hs : s.data ≠ []) : (s ++ t).data ≠ [] := by
  rw [String.data_append]
  intro hc
  exact hs (List.append_eq_nil.mp hc).1

/-- C4: when the GET fails, returns status 400 or above, or the HTML does
not parse, performCrawl marks the crawl "error" with a non-empty message,
sets the URL row's status to "error", leaves the URL's title, HTML version
and login-form flag unchanged, and creates no link rows. -/
theorem performCrawl_error_path (lib : URLLib) (world : World) (u0 : URLRec) (c0 : CrawlRec)
    (h : fetchFails world u0.url = true) :
    (performCrawl lib world u0 c0).crawl.status = "error" ∧
    ¬ (performCrawl lib world u0 c0).crawl.errorMessage = "" ∧
    (performCrawl lib world u0 c0).url.status = "error" ∧
    (performCrawl lib world u0 c0).url.title = u0.title ∧
    (performCrawl lib world u0 c0).url.htmlVersion = u0.htmlVersion ∧
    (performCrawl lib world u0 c0).url.hasLoginForm = u0.hasLoginForm ∧
    (performCrawl lib world u0 c0).links = [] := by
  unfold fetchFails at h
  cases hg : world.get u0.url with
  | error e =>
    simp only [performCrawl, hg, finishCrawl]
    refine ⟨by trivial, ?_, by trivial, by trivial, by trivial, by trivial, by trivial⟩
    exact string_append_ne_empty "HTTP request failed: " e (by decide)
  | ok resp =>
    rw [hg] at h
    simp only [] at h
    by_cases hsc : 400 ≤ resp.statusCode
    · simp only [performCrawl, hg, finishCrawl, if_pos hsc]
      refine ⟨by trivial, ?_, by trivial, by trivial, by trivial, by trivial, by trivial⟩
      exact string_append_ne_empty ("HTTP " ++ toString resp.statusCode ++ ": ")
        resp.statusText (data_append_ne_nil _ _ (data_append_ne_nil _ _ (by decide)))
    · rw [if_neg hsc] at h
      cases hb : resp.body with
      | error e =>
        simp only [performCrawl, hg, finishCrawl, if_neg hsc, hb]
        refine ⟨by trivial, ?_, by trivial, by trivial, by trivial, by trivial, by trivial⟩
        exact string_append_ne_empty "HTML parsing failed: " e (by decide)
      | ok doc =>
        rw [hb] at h
        simp at h

/-- C4 (witness): the error path evaluated on the network where the GET
fails at transport level. -/
theorem performCrawl_error_path_witness :
    fetchFails failWorld sampleURLRec.url = true ∧
    ((performCrawl sampleLib failWorld sampleURLRec sampleCrawlRec).crawl.status = "error" ∧
      ¬ (performCrawl sampleLib failWorld sampleURLRec sampleCrawlRec).crawl.errorMessage = "" ∧
      (performCrawl sampleLib failWorld sampleURLRec sampleCrawlRec).url.status = "error" ∧
      (performCrawl sampleLib failWorld sampleURLRec sampleCrawlRec).url.title = sampleURLRec.title ∧
      (performCrawl sampleLib failWorld sampleURLRec sampleCrawlRec).url.htmlVersion =
        sampleURLRec.htmlVersion ∧
      (performCrawl sampleLib failWorld sampleURLRec sampleCrawlRec).url.hasLoginForm =
        sampleURLRec.hasLoginForm ∧
      (performCrawl sampleLib failWorld sampleURLRec sampleCrawlRec).links = []) :=
  ⟨by decide, performCrawl_error_path sampleLib failWorld sampleURLRec sampleCrawlRec (by decide)⟩

/-- C5: when the GET succeeds with a status below 400 and the HTML parses,
performCrawl marks the crawl "completed", stores the extracted title on
the URL row, and stores the heading counts (as JSON), the link counters
and one link row per extracted link — each carrying the URL's and the
crawl's IDs — on the crawl. -/
theorem performCrawl_success_path (lib : URLLib) (world : World) (u0 : URLRec) (c0 : CrawlRec)
    (resp : GetResp) (doc : NodeTree)
    (hg : world.get u0.url = Except.ok resp) (hsc : resp.statusCode < 400)
    (hb : resp.body = Except.ok doc) :
    (performCrawl lib world u0 c0).crawl.status = "completed" ∧
    (performCrawl lib world u0 c0).url.status = "completed" ∧
    (performCrawl lib world u0 c0).url.title = (extractData lib world doc u0.url).1.title ∧
    (performCrawl lib world u0 c0).crawl.headingCounts =
      headingCountsJSON (extractData lib world doc u0.url).1.headingCounts ∧
    (performCrawl lib world u0 c0).crawl.internalLinks =
      (extractData lib world doc u0.url).1.internalLinks ∧
    (performCrawl lib world u0 c0).crawl.externalLinks =
      (extractData lib world doc u0.url).1.externalLinks ∧
    (performCrawl lib world u0 c0).crawl.brokenLinks =
      (extractData lib world doc u0.url).1.brokenLinks ∧
    (performCrawl lib world u0 c0).links =
      (extractData lib world doc u0.url).1.links.map
        (fun l => { l with urlID := u0.id, crawlID := c0.id }) := by
  have hsc2 : ¬ 400 ≤ resp.statusCode := by omega
  simp [performCrawl, hg, if_neg hsc2, hb, finishCrawl]

/-- C5 (witness): the success path evaluated on the sample network and
document. -/
theorem performCrawl_success_path_witness :
    sampleWorld.get sampleURLRec.url = Except.ok sampleResp ∧
    sampleResp.statusCode < 400 ∧
    sampleResp.body = Except.ok sampleDoc ∧
    (performCrawl sampleLib sampleWorld sampleURLRec sampleCrawlRec).crawl.status = "completed" :=
  ⟨rfl, by decide, rfl,
    (performCrawl_success_path sampleLib sampleWorld sampleURLRec sampleCrawlRec sampleResp
      sampleDoc rfl (by decide) rfl).1⟩

/-- C2: after extraction and accessibility checking, InternalLinks plus
ExternalLinks equals the number of collected links, BrokenLinks equals the
number of links whose IsAccessible flag is false, and BrokenLinks never
exceeds ExternalLinks. -/
theorem extractData_count_invariants (lib : URLLib) (world : World) (doc : NodeTree)
    (baseURL : String) :
    (extractData lib world doc baseURL).1.internalLinks +
        (extractData lib world doc baseURL).1.externalLinks =
      (extractData lib world doc baseURL).1.links.length ∧
    (extractData lib world doc baseURL).1.brokenLinks =
      (extractData lib world doc baseURL).1.links.countP (fun l => !l.isAccessible) ∧
    (extractData lib world doc baseURL).1.brokenLinks ≤
      (extractData lib world doc baseURL).1.externalLinks := by
  unfold extractData
  cases hp : lib.parse baseURL with
  | none => simp [emptyCrawlData]
  | some base =>
    have hlinks : (traverseHTML lib doc emptyCrawlData base).links =
        ((preorderHTML doc).map (nodeLinks lib base)).flatten := by
      simpa [emptyCrawlData] using traverseHTML_links lib base doc emptyCrawlData
    have hint : (traverseHTML lib doc emptyCrawlData base).internalLinks =
        ((preorderHTML doc).map (nodeLinks lib base)).flatten.countP
          (fun l => l.linkType == "internal") := by
      simpa [emptyCrawlData] using traverseHTML_internalLinks lib base doc emptyCrawlData
    have hext : (traverseHTML lib doc emptyCrawlData base).externalLinks =
        ((preorderHTML doc).map (nodeLinks lib base)).flatten.countP
          (fun l => !(l.linkType == "internal")) := by
      simpa [emptyCrawlData] using traverseHTML_externalLinks lib base doc emptyCrawlData
    have hbrk : (traverseHTML lib doc emptyCrawlData base).brokenLinks = 0 := by
      simpa [emptyCrawlData] using traverseHTML_brokenLinks lib base doc emptyCrawlData
    have hacc : ∀ l ∈ (traverseHTML lib doc emptyCrawlData base).links, l.isAccessible = true := by
      rw [hlinks]
      intro l hl
      exact (collected_shape lib base (preorderHTML doc) l hl).1
    refine ⟨?_, ?_, ?_⟩
    · simp only [checkLinkAccessibility]
      rw [hint, hext, checkLinks_length, hlinks]
      exact countP_not_add _ _
    · simp only [checkLinkAccessibility]
      rw [hbrk, Nat.zero_add, checkLinks_broken_countP world _ hacc]
    · simp only [checkLinkAccessibility]
      rw [hbrk, Nat.zero_add, hext, hlinks]
      exact checkLinks_broken_le world _

/-- C3: every crawl issues exactly one GET of the submitted URL followed
by the HEAD requests of the serial accessibility loop — one HEAD per
external link, none for internal links — and every internal link ends up
with status code 200 and never counts as broken. -/
theorem performCrawl_request_trace (lib : URLLib) (world : World) (u0 : URLRec) (c0 : CrawlRec) :
    (performCrawl lib world u0 c0).trace =
      Request.get u0.url ::
        ((performCrawl lib world u0 c0).links.filter (fun l => !(l.linkType == "internal"))).map
          (fun l => Request.head l.linkURL) ∧
    (performCrawl lib world u0 c0).trace.countP isGetRequest = 1 ∧
    (performCrawl lib world u0 c0).links.all
      (fun l => !(l.linkType == "internal") || ((l.statusCode == 200) && l.isAccessible)) = true := by
  cases hg : world.get u0.url with
  | error e => simp [performCrawl, hg, isGetRequest]
  | ok resp =>
    by_cases hsc : 400 ≤ resp.statusCode
    · simp [performCrawl, hg, if_pos hsc, isGetRequest]
    · cases hb : resp.body with
      | error e => simp [performCrawl, hg, if_neg hsc, hb, isGetRequest]
      | ok doc =>
        simp only [performCrawl, hg, if_neg hsc, hb]
        unfold extractData
        cases hp : lib.parse u0.url with
        | none => simp [emptyCrawlData, isGetRequest]
        | some base =>
          have hacc : ∀ l ∈ (traverseHTML lib doc emptyCrawlData base).links,
              l.isAccessible = true := by
            rw [show (traverseHTML lib doc emptyCrawlData base).links =
                ((preorderHTML doc).map (nodeLinks lib base)).flatten from by
              simpa [emptyCrawlData] using traverseHTML_links lib base doc emptyCrawlData]
            intro l hl
            exact (collected_shape lib base (preorderHTML doc) l hl).1
          simp only [checkLinkAccessibility]
          refine ⟨?_, ?_, ?_⟩
          · congr 1
            rw [filter_map_congr (fun l : Link => { l with urlID := u0.id, crawlID := c0.id })
              (fun l : Link => !(l.linkType == "internal"))
              (fun l : Link => Request.head l.linkURL)
              (fun a => rfl) (fun a => rfl)]
            rw [checkLinks_fst]
            rw [filter_map_congr (fun l : Link => (checkOne world l).1)
              (fun l : Link => !(l.linkType == "internal"))
              (fun l : Link => Request.head l.linkURL)
              (fun a => by simp [checkOne_linkType]) (fun a => by simp [checkOne_linkURL])]
            exact checkLinks_trace_filter world _
          · simp [List.countP_cons, isGetRequest, checkLinks_trace_filter,
              List.countP_eq_zero]
          · rw [List.all_eq_true]
            intro l hl
            rw [List.mem_map] at hl
            obtain ⟨x, hx, hlx⟩ := hl
            subst hlx
            by_cases hi : x.linkType = "internal"
            · have hok := checkLinks_internal_ok world _ hacc x hx hi
              simp [hi, hok.1, hok.2]
            · simp [hi]

end WebCrawler
